import Mathlib

/-!
Shallow embedding of the detection-to-remediation pipeline of the vapt-lab
repository: the risk classifier and mitigation orchestrator
(src/mitigation/handler.py), the package validator
(src/correction/validator.py), the backup/rollback manager
(src/correction/rollback.py) and the derived-feature computation of the
metrics processor (src/monitor/processor.py).

External effects (HTTP requests, subprocess calls, the wall clock, file
modification times) are modelled as explicit oracle inputs; a Python
exception raised by a collaborator is modelled as an explicit `exn` value,
so that the `try/except` structure of the source is mirrored by case
analysis on those values.
-/

namespace VaptLab

/-! ## Risk classifier: MitigationHandler._determine_risk_level -/

/-- The `thresholds` section of the mitigation config
(src/mitigation/handler.py lines 43-47). -/
structure Thresholds where
  high_risk : ℚ
  medium_risk : ℚ
  low_risk : ℚ
deriving DecidableEq

/-- MitigationHandler._determine_risk_level (src/mitigation/handler.py
lines 102-113): inclusive comparisons in descending order, with both the
`score >= low_risk` branch and the final `else` branch returning
"low_risk". -/
def determine_risk_level (t : Thresholds) (anomaly_score : ℚ) : String :=
  if anomaly_score ≥ t.high_risk then "high_risk"
  else if anomaly_score ≥ t.medium_risk then "medium_risk"
  else if anomaly_score ≥ t.low_risk then "low_risk"
  else "low_risk"

/-! ## Package validator: src/correction/validator.py -/

/-- Outcome of one `requests.get` call: an HTTP response with a status code
and a (parsed) body, or a raised exception carrying a message. -/
inductive HttpResult (α : Type) where
  | resp (status : Nat) (body : α)
  | exn (msg : String)
deriving DecidableEq

/-- One entry of the `releases` list in the registry's version metadata:
the digest fields may be absent (Python `dict.get` returning `None`). -/
structure ReleaseFile where
  md5_digest : Option String
  sha256_digest : Option String
  url : String
deriving DecidableEq

/-- The digests of the bytes actually downloaded from a release URL
(the md5/sha256 hexdigests computed over the streamed chunks). -/
structure Content where
  md5 : String
  sha256 : String
deriving DecidableEq

/-- Oracle for the network interactions of one PackageValidator call:
the project-metadata GET, the version-metadata GET, and the artifact
downloads keyed by URL. -/
structure ValidatorEnv where
  project_resp : HttpResult (List String)
  version_resp : HttpResult (List ReleaseFile)
  download : String → HttpResult Content

/-- Python's `needle in hay` substring test on strings. -/
def strContains (hay needle : String) : Bool :=
  hay.data.tails.any (fun t => needle.data.isPrefixOf t)

/-- Python's `str.lower()`: lowercase the string character by character. -/
def strToLower (s : String) : String :=
  ⟨s.data.map Char.toLower⟩

/-- PackageValidator._validate_source (src/correction/validator.py lines
30-49): non-200 status fails, any exception is caught and fails, otherwise
some project URL (lower-cased) must contain an allowed source as a
substring. -/
def validate_source (allowed_sources : List String) (env : ValidatorEnv) : Bool :=
  match env.project_resp with
  | HttpResult.exn _ => false
  | HttpResult.resp status urls =>
    if status ≠ 200 then false
    else urls.any (fun url => allowed_sources.any (fun s => strContains (strToLower url) s))

/-- PackageValidator._verify_checksums (src/correction/validator.py lines
75-100): download the artifact, compute both digests, compare against the
published digest fields (comparison with an absent field is Python
`str == None`, i.e. false); any exception is caught and fails. -/
def verify_checksums (env : ValidatorEnv) (r : ReleaseFile) : Bool :=
  match env.download r.url with
  | HttpResult.exn _ => false
  | HttpResult.resp status c =>
    if status ≠ 200 then false
    else (r.md5_digest == some c.md5) && (r.sha256_digest == some c.sha256)

/-- PackageValidator._check_integrity (src/correction/validator.py lines
51-73): non-200 status fails, an empty release list fails, otherwise at
least one release artifact must pass the checksum verification; any
exception is caught and fails. -/
def check_integrity (env : ValidatorEnv) : Bool :=
  match env.version_resp with
  | HttpResult.exn _ => false
  | HttpResult.resp status releases =>
    if status ≠ 200 then false
    else if releases.isEmpty then false
    else releases.any (verify_checksums env)

/-- PackageValidator.validate_package (src/correction/validator.py lines
12-28): source gate first, then integrity gate, each failure short-circuits
with its reason string; both gates catch their own exceptions, so the
outer `except` never fires for gate failures. -/
def validate_package (allowed_sources : List String) (env : ValidatorEnv)
    (package_name version : String) : Bool × String :=
  if validate_source allowed_sources env then
    if check_integrity env then
      (true, "Package validation successful")
    else
      (false, s!"Package {package_name} version {version} failed integrity check")
  else
    (false, s!"Package {package_name} is from an untrusted source")

/-! ## Mitigation orchestrator: src/mitigation/handler.py -/

/-- Outcome of invoking a Python callable that either returns a value or
raises an exception carrying a message. -/
inductive PyResult (α : Type) where
  | ok (a : α)
  | exn (msg : String)
deriving DecidableEq

/-- The `notification` section of the mitigation config
(src/mitigation/handler.py lines 33-42). -/
structure NotificationConfig where
  logging_enabled : Bool
  email_enabled : Bool
  recipients : List String
deriving DecidableEq

/-- Oracle for the collaborators invoked by MitigationHandler's actions:
the correction handler's rollback, the apt-preferences write of
_block_package_updates, and the per-recipient `mail` subprocess
(run with check=True: `mail r = false` models the raised
CalledProcessError for that recipient). -/
structure ExecEnv where
  force_rollback : PyResult Bool
  block_updates : PyResult Bool
  mail : String → Bool

/-- MitigationHandler._send_notification (src/mitigation/handler.py lines
174-215): `success` starts true; the logging branch only writes a log line;
the email branch, when enabled, dispatches one message per recipient inside
a single try/except whose handler sets `success` to false, so the result is
false exactly when email is enabled and some recipient's dispatch raises. -/
def send_notification (cfg : NotificationConfig) (env : ExecEnv) : Bool :=
  if cfg.email_enabled then
    cfg.recipients.all (fun r => env.mail r)
  else
    true

/-- MitigationHandler._execute_action (src/mitigation/handler.py lines
115-149).  The whole dispatch is wrapped in try/except, so a raised
exception is converted into a false return.  The "validate" branch calls
`self.correction_handler.validate_package(package_name)`, but
CorrectionHandler.validate_package (src/correction/handler.py line 69)
requires a second positional argument `version`, so this call raises
TypeError before the validator runs; the branch is therefore a raised
exception regardless of what the validator would return. -/
def execute_action (cfg : NotificationConfig) (env : ExecEnv) (action : String) : Bool :=
  let attempt : PyResult Bool :=
    if action = "rollback" then env.force_rollback
    else if action = "validate" then
      PyResult.exn "TypeError: validate_package() missing 1 required positional argument: version"
    else if action = "block_updates" then env.block_updates
    else if action = "notify" then PyResult.ok (send_notification cfg env)
    else PyResult.ok false
  match attempt with
  | PyResult.ok b => b
  | PyResult.exn _ => false

/-- The mitigation config (src/mitigation/handler.py lines 24-51):
per-tier thresholds, per-tier ordered action lists, notification
settings. -/
structure MitConfig where
  thresholds : Thresholds
  response_actions : String → List String
  notification : NotificationConfig

/-- The structured record emitted by MitigationHandler._log_response
(src/mitigation/handler.py lines 217-234). -/
structure LogEntry where
  package : String
  risk_level : String
  anomaly_score : ℚ
  actions_taken : List String
deriving DecidableEq

/-- MitigationHandler.handle_threat (src/mitigation/handler.py lines
71-100): classify, look up the tier's action list, execute each action in
order collecting the ones that returned true, then log.  The returned pair
is (executed_actions, the log record emitted by _log_response). -/
def handle_threat (cfg : MitConfig) (env : ExecEnv) (package_name : String)
    (anomaly_score : ℚ) : List String × LogEntry :=
  let risk_level := determine_risk_level cfg.thresholds anomaly_score
  let actions := cfg.response_actions risk_level
  let executed_actions := actions.filter (fun a => execute_action cfg.notification env a)
  (executed_actions, ⟨package_name, risk_level, anomaly_score, executed_actions⟩)

/-! ## Backup/rollback manager: src/correction/rollback.py -/

/-- The content of one backup file (src/correction/rollback.py lines
25-29). -/
structure BackupRecord where
  package : String
  version : String
  timestamp : String
deriving DecidableEq

/-- One file in the backup directory: its JSON content plus the
filesystem modification time consulted by _cleanup_old_backups. -/
structure BackupFile where
  record : BackupRecord
  mtime : Nat
deriving DecidableEq

/-- The filename under which backup_package persists a record
(src/correction/rollback.py line 34): `{package_name}_{timestamp}.json`. -/
def mk_filename (package_name timestamp : String) : String :=
  package_name ++ "_" ++ timestamp ++ ".json"

/-- The filename of a backup file in the directory. -/
def filename (f : BackupFile) : String :=
  mk_filename f.record.package f.record.timestamp

/-- The filter used by both _get_last_backup and _cleanup_old_backups
(src/correction/rollback.py lines 86 and 108):
`filename.startswith(package_name) and filename.endswith(".json")`,
i.e. a character-wise test on the filename, not a test of the package
identity recorded inside the file. -/
def matches_str (package_name fname : String) : Bool :=
  package_name.data.isPrefixOf fname.data && ".json".data.isSuffixOf fname.data

/-- The backup directory, in listing order; new files are appended. -/
abbrev BackupDir := List BackupFile

/-- PackageRollback._get_last_backup (src/correction/rollback.py lines
81-101): collect the records of all files whose name starts with the
package name and ends in ".json", sort them by their stored timestamp
string descending (Python's stable sort with reverse=True), and return the
first, or None when nothing matched. -/
def get_last_backup (package_name : String) (dir : BackupDir) : Option BackupRecord :=
  let backups := (dir.filter (fun f => matches_str package_name (filename f))).map
    (fun f => f.record)
  if backups.isEmpty then none
  else (backups.mergeSort (fun a b => decide (b.timestamp ≤ a.timestamp))).head?

/-- PackageRollback._cleanup_old_backups (src/correction/rollback.py lines
103-123): gather the (filename, mtime) pairs of the files matching the
package-name prefix, sort by mtime descending (stable), and delete every
file beyond the first max_history of that ordering. -/
def cleanup_old_backups (max_history : Nat) (package_name : String)
    (dir : BackupDir) : BackupDir :=
  let matched := dir.filter (fun f => matches_str package_name (filename f))
  let sortedDesc := matched.mergeSort (fun a b => decide (b.mtime ≤ a.mtime))
  let removed := (sortedDesc.drop max_history).map filename
  dir.filter (fun f => !(removed.contains (filename f)))

/-- PackageRollback.backup_package (src/correction/rollback.py lines
21-46): write the record under `{package}_{timestamp}.json` (mode "w": an
existing file with the same name is replaced and its mtime refreshed), then
run the cleanup for that package.  The timestamp string is the wall clock
formatted at second resolution ("%Y%m%d_%H%M%S"), and the new file's mtime
is the write time; both enter here as oracle inputs. -/
def backup_package (max_history : Nat) (dir : BackupDir)
    (package_name version timestamp : String) (mtime : Nat) : BackupDir :=
  let f : BackupFile := ⟨⟨package_name, version, timestamp⟩, mtime⟩
  let dir1 := dir.filter (fun g => filename g ≠ filename f) ++ [f]
  cleanup_old_backups max_history package_name dir1

/-- Python truthiness of the `if target_version:` test in rollback_package
(src/correction/rollback.py line 51): None and the empty string are both
falsy. -/
def truthy : Option String → Bool
  | none => false
  | some s => s ≠ ""

/-- The (package, version) pair passed to pip by
PackageRollback.rollback_package (src/correction/rollback.py lines 48-66),
or none when no install is attempted: a truthy explicit target is installed
directly; otherwise the most recent matching backup's version is installed;
with no matching backup the function returns False without installing. -/
def rollback_install_call (dir : BackupDir) (package_name : String)
    (target_version : Option String) : Option (String × String) :=
  if truthy target_version then some (package_name, target_version.getD "")
  else
    match get_last_backup package_name dir with
    | some b => some (package_name, b.version)
    | none => none

/-- Oracle for `pip install {name}=={version}`: true when the subprocess
returns exit code 0 (src/correction/rollback.py lines 68-79; exceptions
are caught there and yield false). -/
structure InstallEnv where
  pip_install : String → String → Bool

/-- PackageRollback.rollback_package (src/correction/rollback.py lines
48-66): perform the install decided by rollback_install_call and return
its success flag, or False when no install is attempted. -/
def rollback_package (env : InstallEnv) (dir : BackupDir) (package_name : String)
    (target_version : Option String) : Bool :=
  match rollback_install_call dir package_name target_version with
  | some (n, v) => env.pip_install n v
  | none => false

/-! ## Metrics processor: MetricsProcessor.add_derived_features
(src/monitor/processor.py lines 86-108) -/

/-- Arithmetic mean of a list of rationals (0 for the empty list, by
rational division by zero). -/
def listMean (l : List ℚ) : ℚ := l.sum / l.length

/-- The sample variance with one delta degree of freedom, as used by
pandas `Rolling.std` (its default ddof=1): sum of squared deviations from
the mean divided by (n - 1). -/
def sampleVar (l : List ℚ) : ℚ :=
  ((l.map (fun x => (x - listMean l) ^ 2)).sum) / ((l.length : ℚ) - 1)

/-- The sample standard deviation (ddof = 1). -/
noncomputable def sampleStd (l : List ℚ) : ℝ := Real.sqrt (sampleVar l)

/-- The trailing window of at most `window` samples ending at row `i`. -/
def trailingWindow (window : Nat) (xs : List ℚ) (i : Nat) : List ℚ :=
  (xs.take (i + 1)).drop (i + 1 - window)

/-- pandas `Series.rolling(window).std()` at row `i`: NaN (here `none`)
when the trailing window holds fewer than `min_periods` observations, and
for an integer window `min_periods` defaults to the window size itself;
otherwise the ddof-1 sample standard deviation of the window. -/
noncomputable def rolling_std (window min_periods : Nat) (xs : List ℚ) (i : Nat) :
    Option ℝ :=
  let w := trailingWindow window xs i
  if w.length < min_periods then none else some (sampleStd w)

/-- pandas `.fillna(0)`: replace NaN (`none`) by 0. -/
def fillna0 (o : Option ℝ) : ℝ := o.getD 0

/-- The `dependency_volatility` column computed by
MetricsProcessor.add_derived_features (src/monitor/processor.py lines
93-99): `df["dependency_count"].rolling(window=5).std().fillna(0)`,
evaluated at row `i` of the column `xs`. -/
noncomputable def dependency_volatility (xs : List ℚ) (i : Nat) : ℝ :=
  fillna0 (rolling_std 5 5 xs i)

/-- The claim's description of `dependency_volatility`: the rolling
standard deviation of the trailing 5 rows, with 0 exactly when fewer than
2 samples are available.  Stated from the claim's words for comparison
with the source-derived `dependency_volatility`. -/
noncomputable def claimed_dependency_volatility (xs : List ℚ) (i : Nat) : ℝ :=
  if (trailingWindow 5 xs i).length < 2 then 0 else sampleStd (trailingWindow 5 xs i)

/-! ## Helper lemmas -/

/-- A file stored under its own package's name always passes the
startswith/endswith filter for that package. -/
theorem matches_own (p ts : String) : matches_str p (mk_filename p ts) = true := by
  have h1 : (mk_filename p ts).data =
      p.data ++ ("_".data ++ (ts.data ++ ".json".data)) := by
    simp [mk_filename, String.data_append]
  have h2 : (mk_filename p ts).data =
      (p.data ++ "_".data ++ ts.data) ++ ".json".data := by
    simp [mk_filename, String.data_append]
  unfold matches_str
  rw [Bool.and_eq_true, List.isPrefixOf_iff_prefix, List.isSuffixOf_iff_suffix]
  constructor
  · rw [h1]; exact List.prefix_append _ _
  · rw [h2]; exact List.suffix_append _ _

/-- Two backup filenames for the same package agree exactly when their
timestamps agree. -/
theorem mk_filename_inj (p a b : String) (h : mk_filename p a = mk_filename p b) :
    a = b := by
  have hd : (mk_filename p a).data = (mk_filename p b).data := by rw [h]
  have ha : (mk_filename p a).data = (p.data ++ "_".data) ++ (a.data ++ ".json".data) := by
    simp [mk_filename, String.data_append]
  have hb : (mk_filename p b).data = (p.data ++ "_".data) ++ (b.data ++ ".json".data) := by
    simp [mk_filename, String.data_append]
  rw [ha, hb] at hd
  have h1 : a.data ++ ".json".data = b.data ++ ".json".data :=
    List.append_cancel_left hd
  have h2 : a.data = b.data := List.append_cancel_right h1
  cases a; cases b; exact congrArg String.mk h2

/-- The head of a descending merge sort by a key is a member attaining the
maximal key. -/
theorem mergeSort_head_key_max {α β : Type} [LinearOrder β] (key : α → β)
    (l : List α) (h : l ≠ []) :
    ∃ b, (l.mergeSort (fun a c => decide (key c ≤ key a))).head? = some b ∧
      b ∈ l ∧ ∀ x ∈ l, key x ≤ key b := by
  have htrans : ∀ a b c : α,
      (fun a c => decide (key c ≤ key a)) a b = true →
      (fun a c => decide (key c ≤ key a)) b c = true →
      (fun a c => decide (key c ≤ key a)) a c = true := by
    intro a b c hab hbc
    simp only [decide_eq_true_eq] at *
    exact hbc.trans hab
  have htotal : ∀ a b : α,
      ((fun a c => decide (key c ≤ key a)) a b ||
       (fun a c => decide (key c ≤ key a)) b a) = true := by
    intro a b
    simp only [Bool.or_eq_true, decide_eq_true_eq]
    exact (le_total (key b) (key a))
  have hperm := List.mergeSort_perm l (fun a c => decide (key c ≤ key a))
  have hsorted := List.sorted_mergeSort htrans htotal l
  have hne : l.mergeSort (fun a c => decide (key c ≤ key a)) ≠ [] := by
    intro h0
    rw [h0] at hperm
    exact h hperm.symm.eq_nil
  obtain ⟨b, t, hbt⟩ : ∃ b t, l.mergeSort (fun a c => decide (key c ≤ key a)) = b :: t := by
    cases hc : l.mergeSort (fun a c => decide (key c ≤ key a)) with
    | nil => exact absurd hc hne
    | cons b t => exact ⟨b, t, rfl⟩
  refine ⟨b, by rw [hbt]; rfl, hperm.subset (hbt ▸ List.mem_cons_self b t), ?_⟩
  intro x hx
  have hx' : x ∈ l.mergeSort (fun a c => decide (key c ≤ key a)) :=
    (hperm.mem_iff).2 hx
  rw [hbt] at hx' hsorted
  rcases List.mem_cons.1 hx' with rfl | hxt
  · exact le_refl _
  · have := (List.pairwise_cons.1 hsorted).1 x hxt
    simpa using this

/-- A descending merge sort by a Nat key sends a strictly-increasing list
to its reverse. -/
theorem mergeSort_rev_of_strict {α : Type} (key : α → Nat) (l : List α)
    (h : List.Pairwise (fun a b => key a < key b) l) :
    l.mergeSort (fun a b => decide (key b ≤ key a)) = l.reverse := by
  haveI : IsAntisymm α (fun a b => key b < key a) :=
    ⟨fun a b h1 h2 => absurd (h1.trans h2) (lt_irrefl _)⟩
  apply List.eq_of_perm_of_sorted (r := fun a b => key b < key a)
  · exact (List.mergeSort_perm l _).trans (List.reverse_perm l).symm
  · have htrans : ∀ a b c : α,
        (fun a c => decide (key c ≤ key a)) a b = true →
        (fun a c => decide (key c ≤ key a)) b c = true →
        (fun a c => decide (key c ≤ key a)) a c = true := by
      intro a b c hab hbc
      simp only [decide_eq_true_eq] at *
      exact hbc.trans hab
    have htotal : ∀ a b : α,
        ((fun a c => decide (key c ≤ key a)) a b ||
         (fun a c => decide (key c ≤ key a)) b a) = true := by
      intro a b
      simp only [Bool.or_eq_true, decide_eq_true_eq]
      exact le_total (key b) (key a)
    have hsorted := List.sorted_mergeSort htrans htotal l
    have hle : List.Pairwise (fun a b => key b ≤ key a)
        (l.mergeSort (fun a b => decide (key b ≤ key a))) := by
      exact hsorted.imp (fun hab => by simpa using hab)
    have hne : List.Pairwise (fun a b : α => key a ≠ key b)
        (l.mergeSort (fun a b => decide (key b ≤ key a))) := by
      refine ((List.mergeSort_perm l _).pairwise_iff ?_).2 (h.imp ne_of_lt)
      intro x y hxy
      exact hxy.symm
    show List.Pairwise _ _
    exact (List.pairwise_and_iff.mpr ⟨hle, hne⟩).imp
      (fun hab => lt_of_le_of_ne hab.1 (Ne.symm hab.2))
  · show List.Pairwise _ _
    exact List.pairwise_reverse.mpr (h.imp (fun hab => hab))

/-- Eviction on a directory of files that all match the package filter and
whose listing order is strictly increasing in mtime keeps exactly the last
`max_history` files of the listing. -/
theorem cleanup_of_strict (mh : Nat) (p : String) (dir : BackupDir)
    (hmatch : ∀ f ∈ dir, matches_str p (filename f) = true)
    (hstrict : List.Pairwise (fun a b : BackupFile => a.mtime < b.mtime) dir)
    (hfn : List.Pairwise (fun a b : BackupFile => filename a ≠ filename b) dir) :
    cleanup_old_backups mh p dir = dir.drop (dir.length - mh) := by
  have hfil : dir.filter (fun f => matches_str p (filename f)) = dir :=
    List.filter_eq_self.mpr hmatch
  have hms : dir.mergeSort (fun a b => decide (b.mtime ≤ a.mtime)) = dir.reverse :=
    mergeSort_rev_of_strict (fun f => f.mtime) dir hstrict
  have hrd : dir.reverse.drop mh = (dir.take (dir.length - mh)).reverse := by
    rcases le_or_lt mh dir.length with hcase | hcase
    · rw [List.reverse_take]
      congr 1
      omega
    · rw [List.drop_eq_nil_of_le (by simpa using le_of_lt hcase)]
      rw [show dir.length - mh = 0 by omega]
      simp
  simp only [cleanup_old_backups, hfil, hms, hrd]
  have hsplit : dir.filter
      (fun f => !(((dir.take (dir.length - mh)).reverse.map filename).contains (filename f)))
      = (dir.take (dir.length - mh)).filter
          (fun f => !(((dir.take (dir.length - mh)).reverse.map filename).contains (filename f)))
        ++ (dir.drop (dir.length - mh)).filter
          (fun f => !(((dir.take (dir.length - mh)).reverse.map filename).contains (filename f))) := by
    rw [← List.filter_append, List.take_append_drop]
  rw [hsplit]
  have hcross : ∀ g ∈ dir.take (dir.length - mh), ∀ f ∈ dir.drop (dir.length - mh),
      filename g ≠ filename f := by
    have hfn2 := hfn
    rw [← List.take_append_drop (dir.length - mh) dir] at hfn2
    exact (List.pairwise_append.1 hfn2).2.2
  have h1 : (dir.take (dir.length - mh)).filter
      (fun f => !(((dir.take (dir.length - mh)).reverse.map filename).contains (filename f)))
      = [] := by
    refine List.filter_eq_nil_iff.mpr ?_
    intro f hf
    have hmem : filename f ∈ (dir.take (dir.length - mh)).reverse.map filename :=
      List.mem_map_of_mem filename (List.mem_reverse.mpr hf)
    have hc : ((dir.take (dir.length - mh)).reverse.map filename).contains (filename f)
        = true := by
      rw [List.contains_eq_any_beq]
      simp only [List.any_eq_true, beq_iff_eq]
      exact ⟨filename f, hmem, rfl⟩
    rw [hc]
    simp
  have h2 : (dir.drop (dir.length - mh)).filter
      (fun f => !(((dir.take (dir.length - mh)).reverse.map filename).contains (filename f)))
      = dir.drop (dir.length - mh) := by
    refine List.filter_eq_self.mpr ?_
    intro f hf
    simp only [Bool.not_eq_true']
    rw [List.contains_eq_any_beq]
    simp only [List.any_eq_false, beq_iff_eq, List.mem_map, List.mem_reverse]
    rintro x ⟨g, hg, rfl⟩
    exact fun hEq => hcross g hg f hf hEq.symm
  rw [h1, h2, List.nil_append]

/-- One backup call on a directory whose files all belong to the package,
are listed in strictly increasing mtime order, carry timestamps different
from the new one, and predate the new write: the call appends the new
record and then drops the oldest files beyond `max_history`. -/
theorem backup_step (mh : Nat) (dir : BackupDir) (p v ts : String) (m : Nat)
    (hpkg : ∀ f ∈ dir, f.record.package = p)
    (hts : ∀ f ∈ dir, f.record.timestamp ≠ ts)
    (hstrict : List.Pairwise (fun a b : BackupFile => a.mtime < b.mtime) dir)
    (hm : ∀ f ∈ dir, f.mtime < m)
    (htsd : List.Pairwise
      (fun a b : BackupFile => a.record.timestamp ≠ b.record.timestamp) dir) :
    backup_package mh dir p v ts m
      = (dir ++ [(⟨⟨p, v, ts⟩, m⟩ : BackupFile)]).drop (dir.length + 1 - mh) := by
  have hfname : ∀ g ∈ dir, filename g = mk_filename p g.record.timestamp := by
    intro g hg
    simp [filename, hpkg g hg]
  have hfn_new : ∀ g ∈ dir,
      filename g ≠ filename (⟨⟨p, v, ts⟩, m⟩ : BackupFile) := by
    intro g hg hEq
    rw [hfname g hg] at hEq
    exact hts g hg (mk_filename_inj p _ _ hEq)
  have hfilter : dir.filter
      (fun g => filename g ≠ filename (⟨⟨p, v, ts⟩, m⟩ : BackupFile)) = dir := by
    refine List.filter_eq_self.mpr ?_
    intro g hg
    simp only [decide_eq_true_eq]
    exact hfn_new g hg
  have hmatch : ∀ f ∈ dir ++ [(⟨⟨p, v, ts⟩, m⟩ : BackupFile)],
      matches_str p (filename f) = true := by
    intro f hf
    rcases List.mem_append.1 hf with hf | hf
    · rw [hfname f hf]; exact matches_own p f.record.timestamp
    · rw [List.mem_singleton.1 hf]
      exact matches_own p ts
  have hstrict2 : List.Pairwise (fun a b : BackupFile => a.mtime < b.mtime)
      (dir ++ [(⟨⟨p, v, ts⟩, m⟩ : BackupFile)]) := by
    refine List.pairwise_append.2 ⟨hstrict, List.pairwise_singleton _ _, ?_⟩
    intro a ha b hb
    rw [List.mem_singleton.1 hb]
    exact hm a ha
  have hfn2 : List.Pairwise (fun a b : BackupFile => filename a ≠ filename b)
      (dir ++ [(⟨⟨p, v, ts⟩, m⟩ : BackupFile)]) := by
    refine List.pairwise_append.2 ⟨?_, List.pairwise_singleton _ _, ?_⟩
    · refine htsd.imp_of_mem ?_
      intro a b ha hb hne hEq
      rw [hfname a ha, hfname b hb] at hEq
      exact hne (mk_filename_inj p _ _ hEq)
    · intro a ha b hb
      rw [List.mem_singleton.1 hb]
      exact hfn_new a ha
  simp only [backup_package]
  rw [hfilter, cleanup_of_strict mh p _ hmatch hstrict2 hfn2,
    List.length_append, List.length_singleton]

/-- The file a backup input triple (version, timestamp, mtime) produces
for a package. -/
def mkFile (p : String) (x : String × String × Nat) : BackupFile :=
  ⟨⟨p, x.1, x.2.1⟩, x.2.2⟩

/-- Folding backup calls for one package over inputs with strictly
increasing timestamps and mtimes, starting from an empty directory, keeps
exactly the `max_history` most recent records, in creation order. -/
theorem backups_fold (mh : Nat) (p : String) (inputs : List (String × String × Nat)) :
    List.Pairwise (fun a b : String × String × Nat => a.2.1 < b.2.1) inputs →
    List.Pairwise (fun a b : String × String × Nat => a.2.2 < b.2.2) inputs →
    List.foldl (fun dir x => backup_package mh dir p x.1 x.2.1 x.2.2) [] inputs
      = (inputs.map (mkFile p)).drop (inputs.length - mh) := by
  induction inputs using List.reverseRecOn with
  | nil => intro _ _; simp
  | append_singleton l x ih =>
    intro hts hm
    have htsl := (List.pairwise_append.1 hts).1
    have hml := (List.pairwise_append.1 hm).1
    have htsc := (List.pairwise_append.1 hts).2.2
    have hmc := (List.pairwise_append.1 hm).2.2
    rw [List.foldl_append, List.foldl_cons, List.foldl_nil, ih htsl hml]
    have hmem : ∀ f ∈ (l.map (mkFile p)).drop (l.length - mh),
        ∃ y ∈ l, f = mkFile p y := by
      intro f hf
      have : f ∈ l.map (mkFile p) := List.mem_of_mem_drop hf
      rcases List.mem_map.1 this with ⟨y, hy, rfl⟩
      exact ⟨y, hy, rfl⟩
    have hstep := backup_step mh ((l.map (mkFile p)).drop (l.length - mh))
      p x.1 x.2.1 x.2.2
      (by intro f hf; rcases hmem f hf with ⟨y, hy, rfl⟩; rfl)
      (by intro f hf; rcases hmem f hf with ⟨y, hy, rfl⟩
          exact ne_of_lt (htsc y hy x (List.mem_singleton_self x)))
      (by refine List.Pairwise.sublist (List.drop_sublist _ _) ?_
          exact (List.pairwise_map).2 hml)
      (by intro f hf; rcases hmem f hf with ⟨y, hy, rfl⟩
          exact hmc y hy x (List.mem_singleton_self x))
      (by refine List.Pairwise.sublist (List.drop_sublist _ _) ?_
          exact (List.pairwise_map).2 (htsl.imp ne_of_lt))
    have hx : (⟨⟨p, x.1, x.2.1⟩, x.2.2⟩ : BackupFile) = mkFile p x := rfl
    rw [hx] at hstep
    rw [hstep]
    have hlen : ((l.map (mkFile p)).drop (l.length - mh)).length
        = l.length - (l.length - mh) := by
      simp
    rw [hlen]
    simp only [List.map_append, List.length_append, List.length_singleton,
      List.map_cons, List.map_nil]
    rcases le_or_lt mh l.length with hcase | hcase
    · rcases Nat.eq_zero_or_pos mh with hz | hpos
      · subst hz
        rw [List.drop_eq_nil_of_le (by simp), List.drop_eq_nil_of_le (by simp)]
      · rw [show l.length - (l.length - mh) + 1 - mh = 1 from by omega]
        rw [List.drop_append_of_le_length (by simp; omega)]
        rw [List.drop_drop]
        rw [List.drop_append_of_le_length (by simp; omega)]
        congr 2
        omega
    · rw [show l.length - mh = 0 from by omega]
      rw [List.drop_zero]
      congr 1

/-! ## Claim theorems -/

/-- C1: for every anomaly score and thresholds with high ≥ medium ≥ low,
_determine_risk_level returns exactly one tier by inclusive comparison in
descending order — high iff score ≥ high, medium iff medium ≤ score < high,
low iff score < medium — and with thresholds 0.8/0.6/0.3 it maps 0.81 and
0.8 to high, 0.79 to medium, 0.59 and 0.0 to low. -/
theorem risk_tiering_c1 (t : Thresholds) (s : ℚ)
    (hhm : t.medium_risk ≤ t.high_risk) (hml : t.low_risk ≤ t.medium_risk) :
    ((determine_risk_level t s = "high_risk" ↔ t.high_risk ≤ s) ∧
     (determine_risk_level t s = "medium_risk" ↔ s < t.high_risk ∧ t.medium_risk ≤ s) ∧
     (determine_risk_level t s = "low_risk" ↔ s < t.medium_risk)) ∧
    determine_risk_level ⟨0.8, 0.6, 0.3⟩ 0.81 = "high_risk" ∧
    determine_risk_level ⟨0.8, 0.6, 0.3⟩ 0.8 = "high_risk" ∧
    determine_risk_level ⟨0.8, 0.6, 0.3⟩ 0.79 = "medium_risk" ∧
    determine_risk_level ⟨0.8, 0.6, 0.3⟩ 0.59 = "low_risk" ∧
    determine_risk_level ⟨0.8, 0.6, 0.3⟩ 0 = "low_risk" := by
  refine ⟨⟨?_, ?_, ?_⟩, ?_, ?_, ?_, ?_, ?_⟩
  · unfold determine_risk_level
    split_ifs with h1 h2 h3 <;> simp_all <;> linarith
  · unfold determine_risk_level
    split_ifs with h1 h2 h3 <;> simp_all <;> linarith
  · unfold determine_risk_level
    split_ifs with h1 h2 h3 <;> simp_all <;> linarith
  · norm_num [determine_risk_level]
  · norm_num [determine_risk_level]
  · norm_num [determine_risk_level]
  · norm_num [determine_risk_level]
  · norm_num [determine_risk_level]

/-- Witness for C1 at thresholds 0.8/0.6/0.3 and score 0.7. -/
theorem risk_tiering_c1_witness :
    ((0.6 : ℚ) ≤ 0.8 ∧ (0.3 : ℚ) ≤ 0.6) ∧
    determine_risk_level ⟨0.8, 0.6, 0.3⟩ 0.7 = "medium_risk" := by
  have h := risk_tiering_c1 ⟨0.8, 0.6, 0.3⟩ 0.7 (by norm_num) (by norm_num)
  exact ⟨⟨by norm_num, by norm_num⟩, (h.1.2.1).mpr ⟨by norm_num, by norm_num⟩⟩

/-- A validator oracle on which both gates pass, so the ok flag is true. -/
def trustedEnv : ValidatorEnv :=
  ⟨HttpResult.resp 200 ["https://github.com/psf/requests"],
   HttpResult.resp 200 [⟨some "d41d8", some "e3b0c", "https://files.pythonhosted.org/requests.whl"⟩,
     ⟨none, none, "https://files.pythonhosted.org/requests.tar.gz"⟩],
   fun u => if u = "https://files.pythonhosted.org/requests.whl"
            then HttpResult.resp 200 ⟨"d41d8", "e3b0c"⟩
            else HttpResult.exn "connection error"⟩

/-- C3 (code bug): the recorded success of the "validate" action is false
for every environment, because _execute_action invokes
CorrectionHandler.validate_package without the required version argument
(a TypeError swallowed by the catch-all) — while the validator itself can
return ok = true, so the recorded success does not equal the validator's
ok flag. -/
theorem validate_action_c3 :
    (∀ (cfg : NotificationConfig) (env : ExecEnv),
      execute_action cfg env "validate" = false) ∧
    (validate_package ["github.com"] trustedEnv "requests" "2.32.0").1 = true := by
  constructor
  · intro cfg env
    rfl
  · decide

/-- C5: the validator never raises across its boundary: a non-200 project
response or an exception there yields (false, untrusted-source reason); an
exception in the integrity gate after a passing source gate yields
(false, integrity reason); and a failing source gate short-circuits — the
result does not depend on the integrity-gate oracle at all. -/
theorem validator_c5 (allowed : List String) (env env2 : ValidatorEnv) (p v : String) :
    (∀ st urls, env.project_resp = HttpResult.resp st urls → st ≠ 200 →
      validate_package allowed env p v
        = (false, s!"Package {p} is from an untrusted source")) ∧
    (∀ msg, env.project_resp = HttpResult.exn msg →
      validate_package allowed env p v
        = (false, s!"Package {p} is from an untrusted source")) ∧
    (∀ msg, validate_source allowed env = true → env.version_resp = HttpResult.exn msg →
      validate_package allowed env p v
        = (false, s!"Package {p} version {v} failed integrity check")) ∧
    (validate_source allowed env = false → env.project_resp = env2.project_resp →
      validate_package allowed env p v = validate_package allowed env2 p v ∧
      validate_package allowed env p v
        = (false, s!"Package {p} is from an untrusted source")) := by
  refine ⟨?_, ?_, ?_, ?_⟩
  · intro st urls hresp hst
    have hs : validate_source allowed env = false := by
      unfold validate_source
      rw [hresp]
      simp [hst]
    unfold validate_package
    rw [hs]
    simp
  · intro msg hresp
    have hs : validate_source allowed env = false := by
      unfold validate_source
      rw [hresp]
    unfold validate_package
    rw [hs]
    simp
  · intro msg hsrc hexn
    have hi : check_integrity env = false := by
      unfold check_integrity
      rw [hexn]
    unfold validate_package
    rw [hsrc, hi]
    simp
  · intro hs hpr
    have hs2 : validate_source allowed env2 = false := by
      unfold validate_source at hs ⊢
      rw [← hpr]
      exact hs
    unfold validate_package
    rw [hs, hs2]
    simp

/-- A validator oracle whose registry query returns HTTP 404. -/
def env404 : ValidatorEnv :=
  ⟨HttpResult.resp 404 [], HttpResult.resp 200 [], fun _ => HttpResult.exn "net"⟩

/-- Witness for C5: the 404 branch fails closed with the untrusted-source
reason. -/
theorem validator_c5_witness :
    validate_package ["pypi.org"] env404 "leftpad" "1.0"
      = (false, "Package leftpad is from an untrusted source") := by
  have h := (validator_c5 ["pypi.org"] env404 env404 "leftpad" "1.0").1 404 [] rfl
    (by decide)
  exact h.trans (by rfl)

/-- C2: per detection event the orchestrator filters the configured action
list of the computed tier by per-action success: the returned list is
exactly the successful actions in execution order (a sublist of the
configured list), every returned name is in the fixed vocabulary (unknown
names are skipped, since their execution returns false), a failing or
raising action leaves the actions before and after it unaffected (no
fail-fast), and the log record is always produced, carrying the executed
list. -/
theorem orchestrator_c2 (cfg : MitConfig) (env : ExecEnv) (p : String) (s : ℚ) :
    (handle_threat cfg env p s =
      ((cfg.response_actions (determine_risk_level cfg.thresholds s)).filter
        (fun a => execute_action cfg.notification env a),
       ⟨p, determine_risk_level cfg.thresholds s, s,
        (cfg.response_actions (determine_risk_level cfg.thresholds s)).filter
          (fun a => execute_action cfg.notification env a)⟩)) ∧
    (∀ a ∈ (handle_threat cfg env p s).1, execute_action cfg.notification env a = true) ∧
    (handle_threat cfg env p s).1.Sublist
      (cfg.response_actions (determine_risk_level cfg.thresholds s)) ∧
    (∀ a ∈ (handle_threat cfg env p s).1,
      a = "rollback" ∨ a = "validate" ∨ a = "block_updates" ∨ a = "notify") ∧
    (∀ pre a post,
      cfg.response_actions (determine_risk_level cfg.thresholds s) = pre ++ a :: post →
      (handle_threat cfg env p s).1 =
        pre.filter (fun x => execute_action cfg.notification env x) ++
        (if execute_action cfg.notification env a then [a] else []) ++
        post.filter (fun x => execute_action cfg.notification env x)) := by
  refine ⟨rfl, ?_, ?_, ?_, ?_⟩
  · intro a ha
    exact List.of_mem_filter ha
  · exact List.filter_sublist _
  · intro a ha
    have hx : execute_action cfg.notification env a = true := List.of_mem_filter ha
    by_cases h1 : a = "rollback"
    · exact Or.inl h1
    by_cases h2 : a = "validate"
    · exact Or.inr (Or.inl h2)
    by_cases h3 : a = "block_updates"
    · exact Or.inr (Or.inr (Or.inl h3))
    by_cases h4 : a = "notify"
    · exact Or.inr (Or.inr (Or.inr h4))
    exfalso
    rw [execute_action] at hx
    simp only [h1, h2, h3, h4, if_false] at hx
    exact Bool.false_ne_true hx
  · intro pre a post hsplit
    show (cfg.response_actions (determine_risk_level cfg.thresholds s)).filter
        (fun x => execute_action cfg.notification env x) = _
    rw [hsplit, List.filter_append, List.filter_cons]
    by_cases hfa : execute_action cfg.notification env a
    · rw [if_pos hfa, if_pos hfa]
      simp
    · rw [if_neg hfa, if_neg hfa]
      simp

/-- A configuration exercising C2: the high tier is configured with a
successful rollback, an unknown action name, and a notify whose email
channel is disabled. -/
def cfgC2 : MitConfig :=
  ⟨⟨0.8, 0.6, 0.3⟩,
   fun r => if r = "high_risk" then ["rollback", "weird", "notify"] else [],
   ⟨true, false, []⟩⟩

/-- Collaborators for the C2 witness: rollback succeeds, the apt pin write
raises, mail never invoked. -/
def envC2 : ExecEnv := ⟨PyResult.ok true, PyResult.exn "boom", fun _ => false⟩

/-- Witness for C2: at score 0.9 the configured high-tier list
[rollback, weird, notify] yields exactly [rollback, notify] — the unknown
name is skipped and the surrounding actions still run. -/
theorem orchestrator_c2_witness :
    (handle_threat cfgC2 envC2 "pkg" 0.9).1 = ["rollback", "notify"] := by
  have hrisk : determine_risk_level cfgC2.thresholds 0.9 = "high_risk" := by
    norm_num [determine_risk_level, cfgC2]
  have h := (orchestrator_c2 cfgC2 envC2 "pkg" 0.9).2.2.2.2 ["rollback"] "weird" ["notify"]
    (by rw [hrisk]; rfl)
  rw [h]
  rfl

/-- The C4 scenario configuration: thresholds 0.8/0.6/0.3, high tier
mapped to [rollback, block_updates, notify], logging enabled, email
disabled. -/
def cfgC4 : MitConfig :=
  ⟨⟨0.8, 0.6, 0.3⟩,
   fun r => if r = "high_risk" then ["rollback", "block_updates", "notify"] else [],
   ⟨true, false, []⟩⟩

/-- The C4 scenario collaborators: rollback succeeds and the apt pin write
succeeds. -/
def envC4 : ExecEnv := ⟨PyResult.ok true, PyResult.ok true, fun _ => false⟩

/-- C4 counterexample: in the claimed scenario the notify action does not
fail — with email disabled _send_notification returns true after logging —
so actions_taken is [rollback, block_updates, notify], not the claimed
[rollback, block_updates]. -/
theorem scenario_c4_counterexample :
    (handle_threat cfgC4 envC4 "pkg" 0.85).1 = ["rollback", "block_updates", "notify"] ∧
    (handle_threat cfgC4 envC4 "pkg" 0.85).1 ≠ ["rollback", "block_updates"] := by
  have hrisk : determine_risk_level cfgC4.thresholds 0.85 = "high_risk" := by
    norm_num [determine_risk_level, cfgC4]
  have h := (orchestrator_c2 cfgC4 envC4 "pkg" 0.85).1
  rw [hrisk] at h
  constructor
  · rw [h]
    rfl
  · rw [h]
    decide

/-- C4 amended: in the scenario the risk level is high and actions_taken is
[rollback, block_updates, notify]; notify succeeds through the
logging-only path because email is disabled. -/
theorem scenario_c4_amended :
    handle_threat cfgC4 envC4 "pkg" 0.85 =
      (["rollback", "block_updates", "notify"],
       ⟨"pkg", "high_risk", 0.85, ["rollback", "block_updates", "notify"]⟩) ∧
    send_notification cfgC4.notification envC4 = true := by
  have hrisk : determine_risk_level cfgC4.thresholds 0.85 = "high_risk" := by
    norm_num [determine_risk_level, cfgC4]
  have h := (orchestrator_c2 cfgC4 envC4 "pkg" 0.85).1
  rw [hrisk] at h
  constructor
  · rw [h]
    rfl
  · rfl

/-- A ledger holding one record for package "ab" and none for "a". -/
def dirC6 : BackupDir := [⟨⟨"ab", "2.0", "20240101_000000"⟩, 10⟩]

/-- A ledger holding one record for package "p". -/
def dirC6b : BackupDir := [⟨⟨"p", "1.0", "20240101_000000"⟩, 0⟩]

/-- An install oracle on which pip always succeeds. -/
def envC6 : InstallEnv := ⟨fun _ _ => true⟩

/-- C6 counterexample: package "a" has no backup records in dirC6, yet
rollback of "a" with no target installs "ab"'s backed-up version (the
prefix filter matches "ab_…json") and returns true instead of false; and
an explicit empty-string target is falsy in Python, so rollback with
target "" consults the ledger instead of installing "". -/
theorem rollback_c6_counterexample :
    (∀ f ∈ dirC6, f.record.package ≠ "a") ∧
    rollback_install_call dirC6 "a" none = some ("a", "2.0") ∧
    rollback_package envC6 dirC6 "a" none = true ∧
    rollback_install_call dirC6b "p" (some "") = some ("p", "1.0") := by
  have hfil : dirC6.filter (fun f => matches_str "a" (filename f)) = dirC6 := by decide
  have hglb : get_last_backup "a" dirC6 = some ⟨"ab", "2.0", "20240101_000000"⟩ := by
    simp only [get_last_backup, hfil]
    simp [dirC6, List.mergeSort_singleton]
  have hfil2 : dirC6b.filter (fun f => matches_str "p" (filename f)) = dirC6b := by decide
  have hglb2 : get_last_backup "p" dirC6b = some ⟨"p", "1.0", "20240101_000000"⟩ := by
    simp only [get_last_backup, hfil2]
    simp [dirC6b, List.mergeSort_singleton]
  refine ⟨by decide, ?_, ?_, ?_⟩
  · simp [rollback_install_call, truthy, hglb]
  · simp [rollback_package, rollback_install_call, truthy, hglb, envC6]
  · simp [rollback_install_call, truthy, hglb2]

/-- C6 amended: provided the filename-prefix filter coincides with exact
package identity on the ledger (no distinct package whose record filename
the package name prefixes), rollback with a nonempty explicit target
installs exactly that version without consulting the ledger; rollback with
no target, when the package has records, installs the version of a record
of that package attaining the lexicographically greatest timestamp; and
with no records for the package it returns false without attempting an
install. -/
theorem rollback_c6_amended (env : InstallEnv) (dir : BackupDir) (p : String)
    (hnc : ∀ f ∈ dir, matches_str p (filename f) = true → f.record.package = p) :
    (∀ v, v ≠ "" → rollback_package env dir p (some v) = env.pip_install p v ∧
      ∀ dir2, rollback_install_call dir p (some v) = rollback_install_call dir2 p (some v)) ∧
    ((∀ f ∈ dir, f.record.package ≠ p) →
      rollback_package env dir p none = false ∧
      rollback_install_call dir p none = none) ∧
    (∀ f0 ∈ dir, f0.record.package = p →
      ∃ b : BackupRecord, get_last_backup p dir = some b ∧
        (∃ g ∈ dir, g.record = b) ∧ b.package = p ∧
        (∀ g ∈ dir, g.record.package = p → g.record.timestamp ≤ b.timestamp) ∧
        rollback_install_call dir p none = some (p, b.version) ∧
        rollback_package env dir p none = env.pip_install p b.version) := by
  refine ⟨?_, ?_, ?_⟩
  · intro v hv
    have hcall : rollback_install_call dir p (some v) = some (p, v) := by
      simp [rollback_install_call, truthy, hv]
    refine ⟨by simp [rollback_package, hcall], ?_⟩
    intro dir2
    rw [hcall]
    simp [rollback_install_call, truthy, hv]
  · intro hnone
    have hfil : dir.filter (fun f => matches_str p (filename f)) = [] := by
      refine List.filter_eq_nil_iff.mpr ?_
      intro f hf hm
      exact hnone f hf (hnc f hf hm)
    have hglb : get_last_backup p dir = none := by
      simp [get_last_backup, hfil]
    exact ⟨by simp [rollback_package, rollback_install_call, truthy, hglb],
      by simp [rollback_install_call, truthy, hglb]⟩
  · intro f0 hf0 hp0
    have hf0m : f0 ∈ dir.filter (fun f => matches_str p (filename f)) := by
      refine List.mem_filter.2 ⟨hf0, ?_⟩
      rw [filename, hp0]
      exact matches_own p _
    have hne : (dir.filter (fun f => matches_str p (filename f))).map
        (fun f => f.record) ≠ [] := by
      simp only [ne_eq, List.map_eq_nil_iff]
      intro h0
      rw [h0] at hf0m
      exact List.not_mem_nil f0 hf0m
    obtain ⟨b, hhead, hbmem, hmax⟩ :=
      mergeSort_head_key_max (fun r : BackupRecord => r.timestamp)
        ((dir.filter (fun f => matches_str p (filename f))).map (fun f => f.record)) hne
    have hE : ((dir.filter (fun f => matches_str p (filename f))).map
        (fun f => f.record)).isEmpty = false := by
      simpa [List.isEmpty_iff] using hne
    have hglb : get_last_backup p dir = some b := by
      simp only [get_last_backup]
      rw [hE]
      simpa using hhead
    obtain ⟨g, hgmem, hgr⟩ := List.mem_map.1 hbmem
    have hgmf := List.of_mem_filter hgmem
    have hgp : g.record.package = p := hnc g (List.mem_of_mem_filter hgmem)
      (by simpa using hgmf)
    refine ⟨b, hglb, ⟨g, List.mem_of_mem_filter hgmem, hgr⟩, by rw [← hgr]; exact hgp,
      ?_, ?_, ?_⟩
    · intro g2 hg2 hg2p
      have hg2m : g2 ∈ dir.filter (fun f => matches_str p (filename f)) := by
        refine List.mem_filter.2 ⟨hg2, ?_⟩
        rw [filename, hg2p]
        exact matches_own p _
      exact hmax g2.record (List.mem_map_of_mem _ hg2m)
    · simp [rollback_install_call, truthy, hglb]
    · simp [rollback_package, rollback_install_call, truthy, hglb]

/-- A ledger holding two records for package "a". -/
def dirC6w : BackupDir :=
  [⟨⟨"a", "1.0", "20240101_000000"⟩, 0⟩, ⟨⟨"a", "1.1", "20240202_000000"⟩, 1⟩]

/-- Witness for the amended C6: an explicit nonempty target is installed
directly. -/
theorem rollback_c6_witness :
    rollback_package envC6 dirC6w "a" (some "2.0") = true := by
  have h := (rollback_c6_amended envC6 dirC6w "a" (by decide)).1 "2.0" (by decide)
  rw [h.1]
  rfl

/-- C7: for one package with max_history = 5, after 8 backup calls whose
records were created in strictly increasing timestamp and mtime order
starting from an empty directory, exactly the 5 most recently created
records remain, in creation order. -/
theorem backup_eviction_c7 (p : String) (inputs : List (String × String × Nat))
    (hlen : inputs.length = 8)
    (hts : List.Pairwise (fun a b : String × String × Nat => a.2.1 < b.2.1) inputs)
    (hm : List.Pairwise (fun a b : String × String × Nat => a.2.2 < b.2.2) inputs) :
    List.foldl (fun dir x => backup_package 5 dir p x.1 x.2.1 x.2.2) [] inputs
      = (inputs.map (mkFile p)).drop 3 ∧
    (List.foldl (fun dir x => backup_package 5 dir p x.1 x.2.1 x.2.2) [] inputs).length
      = 5 := by
  have h := backups_fold 5 p inputs hts hm
  rw [hlen] at h
  constructor
  · exact h
  · rw [h]
    simp [hlen]

/-- The 8 backup inputs of the C7 witness, strictly increasing in both
timestamp and mtime. -/
def inputsC7 : List (String × String × Nat) :=
  [("1.0", "20240101_000000", 0), ("1.1", "20240102_000000", 1),
   ("1.2", "20240103_000000", 2), ("1.3", "20240104_000000", 3),
   ("1.4", "20240105_000000", 4), ("1.5", "20240106_000000", 5),
   ("1.6", "20240107_000000", 6), ("1.7", "20240108_000000", 7)]

/-- Witness for C7 on 8 concrete backups of one package. -/
theorem backup_eviction_c7_witness :
    List.foldl (fun dir x => backup_package 5 dir "pkg" x.1 x.2.1 x.2.2) [] inputsC7
      = (inputsC7.map (mkFile "pkg")).drop 3 := by
  have hts : List.Pairwise (fun a b : String × String × Nat => a.2.1 < b.2.1) inputsC7 := by
    have h : List.Pairwise
        (fun a b : String × String × Nat => a.2.1.toList < b.2.1.toList) inputsC7 := by
      decide
    exact h.imp (fun hab => String.lt_iff_toList_lt.mpr hab)
  exact (backup_eviction_c7 "pkg" inputsC7 (by decide) hts (by decide)).1

/-- C8 counterexample: two backup calls with the same inputs in the same
wall-clock second produce the same timestamp string, hence the same
filename, and the second write replaces the first — one record remains,
an upsert rather than two append-only events. -/
theorem backup_c8_counterexample :
    backup_package 5 (backup_package 5 [] "pkg" "1.0" "20240101_120000" 0)
        "pkg" "1.0" "20240101_120000" 1
      = [⟨⟨"pkg", "1.0", "20240101_120000"⟩, 1⟩] ∧
    (backup_package 5 (backup_package 5 [] "pkg" "1.0" "20240101_120000" 0)
        "pkg" "1.0" "20240101_120000" 1).length ≠ 2 := by
  have h1 : backup_package 5 [] "pkg" "1.0" "20240101_120000" 0
      = [⟨⟨"pkg", "1.0", "20240101_120000"⟩, 0⟩] := by
    have h := backup_step 5 [] "pkg" "1.0" "20240101_120000" 0
      (by simp) (by simp) (by simp) (by simp) (by simp)
    simpa using h
  rw [h1]
  have h2 : backup_package 5 [⟨⟨"pkg", "1.0", "20240101_120000"⟩, 0⟩]
      "pkg" "1.0" "20240101_120000" 1
      = [⟨⟨"pkg", "1.0", "20240101_120000"⟩, 1⟩] := by
    simp only [backup_package]
    have hfil : ([⟨⟨"pkg", "1.0", "20240101_120000"⟩, 0⟩] : BackupDir).filter
        (fun g => filename g ≠
          filename (⟨⟨"pkg", "1.0", "20240101_120000"⟩, 1⟩ : BackupFile)) = [] := by
      decide
    rw [hfil]
    simp only [List.nil_append, cleanup_old_backups]
    have hm : ([⟨⟨"pkg", "1.0", "20240101_120000"⟩, 1⟩] : BackupDir).filter
        (fun f => matches_str "pkg" (filename f))
        = [⟨⟨"pkg", "1.0", "20240101_120000"⟩, 1⟩] := by decide
    rw [hm, List.mergeSort_singleton]
    decide
  rw [h2]
  exact ⟨rfl, by decide⟩

/-- C8 amended: when the two calls' second-resolution clock timestamps
differ, two distinct records with differing timestamps result, and the
timestamps in the resulting directory are pairwise distinct (per-package
uniqueness); a same-second repeat instead overwrites the record. -/
theorem backup_c8_amended (p v ts1 ts2 : String) (m1 m2 : Nat) (h : ts1 ≠ ts2) :
    backup_package 5 (backup_package 5 [] p v ts1 m1) p v ts2 m2
      = [⟨⟨p, v, ts1⟩, m1⟩, ⟨⟨p, v, ts2⟩, m2⟩] ∧
    (⟨p, v, ts1⟩ : BackupRecord) ≠ (⟨p, v, ts2⟩ : BackupRecord) ∧
    List.Pairwise (fun a b : BackupFile => a.record.timestamp ≠ b.record.timestamp)
      (backup_package 5 (backup_package 5 [] p v ts1 m1) p v ts2 m2) := by
  have h1 : backup_package 5 [] p v ts1 m1 = [⟨⟨p, v, ts1⟩, m1⟩] := by
    have hstep := backup_step 5 [] p v ts1 m1
      (by simp) (by simp) (by simp) (by simp) (by simp)
    simpa using hstep
  have hfn12 : filename (⟨⟨p, v, ts1⟩, m1⟩ : BackupFile)
      ≠ filename (⟨⟨p, v, ts2⟩, m2⟩ : BackupFile) := by
    intro hEq
    exact h (mk_filename_inj p ts1 ts2 hEq)
  have h2 : backup_package 5 [⟨⟨p, v, ts1⟩, m1⟩] p v ts2 m2
      = [⟨⟨p, v, ts1⟩, m1⟩, ⟨⟨p, v, ts2⟩, m2⟩] := by
    simp only [backup_package]
    have hfil : ([⟨⟨p, v, ts1⟩, m1⟩] : BackupDir).filter
        (fun g => filename g ≠ filename (⟨⟨p, v, ts2⟩, m2⟩ : BackupFile))
        = [⟨⟨p, v, ts1⟩, m1⟩] := by
      refine List.filter_eq_self.mpr ?_
      intro g hg
      rw [List.mem_singleton.1 hg]
      simp only [decide_eq_true_eq]
      exact hfn12
    rw [hfil]
    simp only [cleanup_old_backups]
    have hmatch : ([⟨⟨p, v, ts1⟩, m1⟩, ⟨⟨p, v, ts2⟩, m2⟩] : BackupDir).filter
        (fun f => matches_str p (filename f))
        = [⟨⟨p, v, ts1⟩, m1⟩, ⟨⟨p, v, ts2⟩, m2⟩] := by
      refine List.filter_eq_self.mpr ?_
      intro g hg
      rcases List.mem_cons.1 hg with rfl | hg
      · exact matches_own p ts1
      · rw [List.mem_singleton.1 hg]
        exact matches_own p ts2
    have hdrop : (([⟨⟨p, v, ts1⟩, m1⟩, ⟨⟨p, v, ts2⟩, m2⟩] : BackupDir).mergeSort
        (fun a b => decide (b.mtime ≤ a.mtime))).drop 5 = [] := by
      refine List.drop_eq_nil_of_le ?_
      rw [List.length_mergeSort]
      simp
    rw [List.singleton_append, hmatch, hdrop]
    simp
  rw [h1, h2]
  refine ⟨rfl, ?_, ?_⟩
  · intro hEq
    exact h (congrArg BackupRecord.timestamp hEq)
  · exact List.pairwise_cons.2 ⟨by intro b hb; rw [List.mem_singleton.1 hb]; exact h,
      List.pairwise_singleton _ _⟩

/-- Witness for the amended C8: two same-input backups one second apart
leave two records. -/
theorem backup_c8_witness :
    backup_package 5 (backup_package 5 [] "pkg" "1.0" "20240101_120000" 0)
        "pkg" "1.0" "20240101_120001" 1
      = [⟨⟨"pkg", "1.0", "20240101_120000"⟩, 0⟩,
         ⟨⟨"pkg", "1.0", "20240101_120001"⟩, 1⟩] :=
  (backup_c8_amended "pkg" "1.0" "20240101_120000" "20240101_120001" 0 1
    (by decide)).1

/-- A ledger with one record each for packages "a" and "a_2024". -/
def dirC10a : BackupDir :=
  [⟨⟨"a", "1.0", "20240101_000000"⟩, 0⟩, ⟨⟨"a_2024", "9.9", "20250101_000000"⟩, 1⟩]

/-- A ledger with one record for package "a" only. -/
def dirC10b : BackupDir := [⟨⟨"a", "1.0", "20240101_000000"⟩, 0⟩]

/-- C10: lookup and eviction match by filename prefix, not package
identity: with p = "a" a proper prefix of q = "a_2024", rollback of "a"
with no target selects the record backed up for "a_2024" and installs its
version for "a"; and a backup call for "a_2024" with max_history 1 evicts
"a"'s record, whose filename "a_20240101_000000.json" starts with
"a_2024". -/
theorem cross_package_c10 :
    "a" ≠ "a_2024" ∧ "a".data.isPrefixOf "a_2024".data = true ∧
    get_last_backup "a" dirC10a = some ⟨"a_2024", "9.9", "20250101_000000"⟩ ∧
    rollback_install_call dirC10a "a" none = some ("a", "9.9") ∧
    backup_package 1 dirC10b "a_2024" "9.9" "20250101_000000" 5
      = [⟨⟨"a_2024", "9.9", "20250101_000000"⟩, 5⟩] := by
  have hfil : dirC10a.filter (fun f => matches_str "a" (filename f)) = dirC10a := by
    decide
  have hglb : get_last_backup "a" dirC10a
      = some ⟨"a_2024", "9.9", "20250101_000000"⟩ := by
    simp only [get_last_backup, hfil]
    simp [dirC10a, List.mergeSort, List.merge]
    rw [if_neg (by decide)]
    rfl
  refine ⟨by decide, by decide, hglb, ?_, ?_⟩
  · simp [rollback_install_call, truthy, hglb]
  · simp only [backup_package]
    have hfil2 : dirC10b.filter
        (fun g => filename g ≠
          filename (⟨⟨"a_2024", "9.9", "20250101_000000"⟩, 5⟩ : BackupFile))
        = dirC10b := by decide
    rw [hfil2]
    simp only [cleanup_old_backups]
    have hmatch : (dirC10b ++ [(⟨⟨"a_2024", "9.9", "20250101_000000"⟩, 5⟩ : BackupFile)]).filter
        (fun f => matches_str "a_2024" (filename f))
        = dirC10b ++ [(⟨⟨"a_2024", "9.9", "20250101_000000"⟩, 5⟩ : BackupFile)] := by
      decide
    rw [hmatch]
    have hms : ((dirC10b ++ [(⟨⟨"a_2024", "9.9", "20250101_000000"⟩, 5⟩ : BackupFile)]).mergeSort
        (fun a b => decide (b.mtime ≤ a.mtime)))
        = [⟨⟨"a_2024", "9.9", "20250101_000000"⟩, 5⟩, ⟨⟨"a", "1.0", "20240101_000000"⟩, 0⟩] := by
      simp [dirC10b, List.mergeSort]
    rw [hms]
    decide

/-- C9 counterexample: at row 1 of the column [0, 2] the trailing window
holds 2 samples, so the claim's value is the sample standard deviation
√2 ≠ 0, but the code yields 0 because pandas' min_periods defaults to the
window size 5 and the rolling std is NaN, filled with 0. -/
theorem volatility_c9_counterexample :
    dependency_volatility [0, 2] 1 = 0 ∧
    claimed_dependency_volatility [0, 2] 1 = Real.sqrt 2 ∧
    claimed_dependency_volatility [0, 2] 1 ≠ dependency_volatility [0, 2] 1 := by
  have hw : trailingWindow 5 [(0 : ℚ), 2] 1 = [0, 2] := by
    simp [trailingWindow]
  have h1 : dependency_volatility [0, 2] 1 = 0 := by
    rw [dependency_volatility, rolling_std]
    simp only [hw]
    norm_num [fillna0]
  have hvar : sampleVar [(0 : ℚ), 2] = 2 := by
    norm_num [sampleVar, listMean]
  have h2 : claimed_dependency_volatility [0, 2] 1 = Real.sqrt 2 := by
    rw [claimed_dependency_volatility]
    rw [hw]
    norm_num [sampleStd, hvar]
  refine ⟨h1, h2, ?_⟩
  rw [h1, h2]
  exact (Real.sqrt_pos.mpr (by norm_num)).ne'

/-- C9 amended: dependency_volatility equals the trailing-5-row sample
standard deviation only when the window holds 5 samples; for every row
with fewer than 5 trailing samples (including rows with 2, 3 or 4
samples, where the standard deviation is defined) it is 0, because
pandas' min_periods defaults to the window size. -/
theorem volatility_c9_amended (xs : List ℚ) (i : Nat) (hi : i < xs.length) :
    (i + 1 < 5 → dependency_volatility xs i = 0) ∧
    (5 ≤ i + 1 → dependency_volatility xs i = sampleStd (trailingWindow 5 xs i) ∧
      (trailingWindow 5 xs i).length = 5) := by
  have hlen : (trailingWindow 5 xs i).length = min (i + 1) 5 := by
    simp only [trailingWindow, List.length_drop, List.length_take]
    omega
  constructor
  · intro h5
    have hlt : (trailingWindow 5 xs i).length < 5 := by omega
    rw [dependency_volatility, rolling_std]
    simp only [hlt, if_pos]
    rfl
  · intro h5
    have hge : ¬ ((trailingWindow 5 xs i).length < 5) := by omega
    refine ⟨?_, by omega⟩
    rw [dependency_volatility, rolling_std]
    simp only [hge, if_neg]
    rfl

/-- Witness for the amended C9 at a 5-row column. -/
theorem volatility_c9_witness :
    dependency_volatility [0, 1, 2, 3, 5] 4
      = sampleStd (trailingWindow 5 [0, 1, 2, 3, 5] 4) ∧
    dependency_volatility [0, 1, 2, 3, 5] 1 = 0 := by
  have h4 := volatility_c9_amended [0, 1, 2, 3, 5] 4 (by decide)
  have h1 := volatility_c9_amended [0, 1, 2, 3, 5] 1 (by decide)
  exact ⟨(h4.2 (by omega)).1, h1.1 (by omega)⟩

end VaptLab
